import Mathlib

/-!
Shallow embedding of the tweetfetcher module of `jazz`
(src/unnamed/part_001), together with its datastore-facing behaviour as far
as the verified properties need it.  JavaScript numbers only ever hold small
non-negative integers here, so they are modelled by `Nat`; out-of-bounds
array reads (`vms[i]` with `i >= vms.length`, which is `undefined` in JS)
are modelled by `Option` via `List.get?`; fallible external calls are
modelled by an `Except` argument carrying the callback's `(err, result)`
pair.
-/

namespace Jazz

/-- The mutable module-level state of the tweetfetcher that the dispatcher
("load balancer") uses: the current worker-pool snapshot `vms` and the
round-robin cursor `roundRobinIndex` (part_001 lines 9-10). -/
structure FetcherState where
  vms : List String
  roundRobinIndex : Nat
  deriving Repr, DecidableEq

/-- Function `selectNextVM` (part_001 lines 70-75).

```js
var currentRoundRobinIndex = roundRobinIndex;
roundRobinIndex = ((roundRobinIndex + 1) % vms.length == 0 ? 0 : roundRobinIndex + 1);
var selectedVM = vms.length > 0 ? vms[currentRoundRobinIndex] : 'default';
return selectedVM;
```

In JS, when `vms.length` is `0` the test `(i + 1) % 0 == 0` compares `NaN`
with `0` and is false, so the cursor becomes `i + 1`; that is the
`vms.length ≠ 0 ∧ _` guard below.  `vms[i]` with `i` out of bounds is
`undefined`, hence the `Option String` result (`some "default"` is the
sentinel returned for an empty pool). -/
def selectNextVM (s : FetcherState) : Option String × FetcherState :=
  let cur := s.roundRobinIndex
  let next := if s.vms.length ≠ 0 ∧ (cur + 1) % s.vms.length = 0 then 0 else cur + 1
  let selected := if s.vms.length > 0 then s.vms.get? cur else some "default"
  (selected, { s with roundRobinIndex := next })

/-- Runs `n` consecutive dispatches: each incoming tweet calls `selectNextVM`
once (`onNewTweet`, part_001 lines 78-90); the pool snapshot is only
changed by `updateAvailableVMs`, so across calls with no refresh the state
evolves by `selectNextVM` alone.  Returns the list of selected workers in
arrival order and the final state. -/
def assignN (s : FetcherState) : Nat → List (Option String) × FetcherState
  | 0 => ([], s)
  | n + 1 =>
    let (w, s1) := selectNextVM s
    let (ws, s2) := assignN s1 n
    (w :: ws, s2)

/-! ### Term pipeline (`getTerms`, part_001 lines 33-66) -/

/-- JavaScript's `toLowerCase` on one character, for the character range
the terms use (Basic Latin): `A`-`Z` maps to `a`-`z`, everything else is
unchanged. -/
def asciiLowerChar (c : Char) : Char :=
  if 'A' ≤ c ∧ c ≤ 'Z' then Char.ofNat (c.toNat + 32) else c

/-- Models `k.toLowerCase()` (part_001 line 57). -/
def jsToLower (s : String) : String :=
  ⟨s.data.map asciiLowerChar⟩

/-- Models `k.trim()` (part_001 line 57): strips whitespace from both ends. -/
def jsTrim (s : String) : String :=
  ⟨((s.data.dropWhile Char.isWhitespace).reverse.dropWhile Char.isWhitespace).reverse⟩

/-- JavaScript's default string comparison (`<`, and the comparator of
`Array.sort`): lexicographic over UTF-16 code units, which for the
characters the terms use coincides with comparing the code points. -/
def charsLe : List Char → List Char → Bool
  | [], _ => true
  | _ :: _, [] => false
  | a :: as, b :: bs =>
    if a.toNat < b.toNat then true
    else if b.toNat < a.toNat then false
    else charsLe as bs

/-- Code-unit-order comparison of two strings, `strLe a b ↔ a ≤ b` in
JS. -/
def strLe (a b : String) : Bool :=
  charsLe a.data b.data

/-- Insertion of a string into a sorted list, auxiliary for `sortTerms`. -/
def insertSorted (x : String) : List String → List String
  | [] => [x]
  | y :: ys => if strLe x y then x :: y :: ys else y :: insertSorted x ys

/-- Models `keywords.sort()` (part_001 line 62): JavaScript's default `Array.sort`
orders strings by `strLe`; its observable result is the stable sorted list,
which this insertion sort produces. -/
def sortTerms : List String → List String
  | [] => []
  | x :: xs => insertSorted x (sortTerms xs)

/-- The cleansing pipeline of `getTerms` (part_001 lines 55-62):

```js
keywords = keywords.map(function(k) { return k.toLowerCase().trim(); });
keywords = keywords.filter(function(k) { return k.length > 0; });
keywords.sort();
```
-/
def cleanse (ws : List String) : List String :=
  sortTerms ((ws.map fun k => jsTrim (jsToLower k)).filter fun k => k.length > 0)

/-- Function `getTerms` (part_001 lines 33-66): the datastore call
`db.getAllTerms(function(err, words) ...)` is modelled by its `(err, words)`
outcome.  On error the code logs and leaves `keywords` at its initial `[]`
(it does not return early), so the cleansing runs on `[]` and the callback
receives the cleansed list either way. -/
def getTerms (dbResult : Except String (List String)) : List String :=
  cleanse (match dbResult with
    | .error _ => []
    | .ok words => words)

/-- The term-equality check of `updateTerms` (part_001 lines 136-137):

```js
terms.length == currentStreamTerms.length &&
terms.every(function (element, index) { return element === currentStreamTerms[index]; });
```

`every` visits index `i < terms.length` with element `terms[i]`; comparing
with `currentStreamTerms[index]`, which is `undefined` (never equal to a
string) when out of range, is `some (terms[i]) == cur.get? i`. -/
def termsEqual (terms cur : List String) : Bool :=
  terms.length == cur.length &&
    (List.range terms.length).all fun i => terms.get? i == cur.get? i

/-! ### Subscription rotation (`updateTerms` / `subscribeToTweets`,
part_001 lines 95-157) -/

/-- Externally visible actions on the feed source: stopping an open stream
handle and opening a new subscription.  Handles are identified by the
number drawn from the fresh-handle supply when `subscribeToTweets` creates
the stream object. -/
inductive FeedEvent where
  | stop (handle : Nat)
  | subscribe (terms : List String) (handle : Nat)
  deriving Repr, DecidableEq

/-- The module state owned by the rotation logic: `currentStreamTerms`
(part_001 line 20), the `twitterStream` handle reference (line 239,
initially `undefined`, i.e. `none`), and the supply of fresh handle
identities for streams yet to be created. -/
structure TermState where
  currentStreamTerms : List String
  twitterStream : Option Nat
  nextHandle : Nat
  deriving Repr, DecidableEq

/-- Function `updateTerms` (part_001 lines 133-157) applied to one `getAllTerms`
outcome.  Returns the new state and the ordered trace of feed actions the
call performs.  If the cleansed terms equal `currentStreamTerms` the call
does nothing; otherwise it stops the open stream first (if any), clearing
the reference, and then `subscribeToTweets` opens the new stream, after
which the callback installs the new handle and the new terms. -/
def updateTerms (s : TermState) (dbResult : Except String (List String)) :
    TermState × List FeedEvent :=
  let terms := getTerms dbResult
  if termsEqual terms s.currentStreamTerms then
    (s, [])
  else
    match s.twitterStream with
    | some h =>
      ({ currentStreamTerms := terms, twitterStream := some s.nextHandle,
         nextHandle := s.nextHandle + 1 },
       [.stop h, .subscribe terms s.nextHandle])
    | none =>
      ({ currentStreamTerms := terms, twitterStream := some s.nextHandle,
         nextHandle := s.nextHandle + 1 },
       [.subscribe terms s.nextHandle])

/-- One feed action applied to the set (list without duplicates) of
currently open handles: `stop` closes a handle, `subscribe` opens one. -/
def applyEvent (hs : List Nat) : FeedEvent → List Nat
  | .stop h => hs.erase h
  | .subscribe _ h => hs ++ [h]

/-- The handles open after running a trace of feed actions from an initial
set of open handles. -/
def openHandles (hs : List Nat) : List FeedEvent → List Nat
  | [] => hs
  | e :: evs => openHandles (applyEvent hs e) evs

/-! ### Worker-pool refresh (`updateAvailableVMs`, part_001 lines 159-188) -/

/-- One managed instance as returned by the inventory listing; the optional
fields model JavaScript's `hasOwnProperty` checks (`none` = absent). -/
structure VMInfo where
  name : String
  instanceStatus : Option String
  currentAction : Option String
  deriving Repr, DecidableEq

/-- The filter of `updateAvailableVMs` (part_001 lines 166-169): keep an
instance if it has `instanceStatus === 'RUNNING'` or
`currentAction === 'CREATING'`. -/
def isLive (vm : VMInfo) : Bool :=
  vm.instanceStatus == some "RUNNING" || vm.currentAction == some "CREATING"

/-- Outcome of one pool-refresh cycle's external calls: the cloud-module
authentication callback may fail, the `listVMsOfInstanceGroup` callback may
fail, the response may lack the `managedInstances` field, or it carries the
instance list. -/
inductive InventoryResult where
  | authErr (msg : String)
  | listErr (msg : String)
  | noManifest
  | manifest (instances : List VMInfo)
  deriving Repr, DecidableEq

/-- Function `updateAvailableVMs` (part_001 lines 159-188): on either error path the
code only logs (`console.log(err)`) and `vms` keeps its previous value; on
success without a `managedInstances` field `vms` becomes `[]`; otherwise
`vms` is replaced by the names of the live instances.  `roundRobinIndex` is
never touched. -/
def updateAvailableVMs (s : FetcherState) (r : InventoryResult) : FetcherState :=
  match r with
  | .authErr _ => s
  | .listErr _ => s
  | .noManifest => { s with vms := [] }
  | .manifest instances => { s with vms := (instances.filter isLive).map VMInfo.name }

/-! ### Stats reporting (`updateStats`, part_001 lines 190-214) -/

/-- The stats window state (part_001 lines 27-30): timestamp of the last
report (milliseconds) and the tweets counted since. -/
structure Stats where
  timestamp : Nat
  tweetsCount : Nat
  deriving Repr, DecidableEq

/-- Models `toFixed(1)`: the number rounded to one decimal place.  The JavaScript
source formats `newTweets / timeSpan * 1000` with `toFixed(1)`; modelled
exactly over `ℚ` (on every value the verified statements touch, the IEEE
double computation rounds to the same one-decimal result). -/
def toFixed1 (q : ℚ) : ℚ :=
  (round (q * 10) : ℤ) / 10

/-- The value the stats path persists: either a finite number (a decimal
string such as `"2.5"` in the program) or the string `"Infinity"`.  `NaN`
needs no constructor because the `isNaN` guard replaces it with `0.0`
before it can be persisted. -/
inductive StatValue where
  | finite (q : ℚ)
  | infinity
  deriving Repr, DecidableEq

/-- The `tweetsPerSec` value of `updateStats` (part_001 lines 194-195):
`(newTweets / timeSpan * 1000).toFixed(1)`, guarded by
`if (isNaN(tweetsPerSec)) { tweetsPerSec = 0.0 }`.  With `timeSpan = 0` and
a zero count, `0/0` is `NaN`, `toFixed(1)` gives the string `"NaN"`, and
`isNaN("NaN")` is true, so the guard replaces the value with `0.0`.  With
`timeSpan = 0` and a positive count, the division gives `Infinity`,
`toFixed(1)` gives the string `"Infinity"`, and `isNaN("Infinity")` is
FALSE (it coerces to the number `Infinity`, which is not `NaN`), so the
guard does not fire and `"Infinity"` is persisted.  Finite results pass
the guard unchanged (`isNaN` on a decimal string is false). -/
def tweetsPerSec (newTweets timeSpan : Nat) : StatValue :=
  if timeSpan = 0 then
    if newTweets = 0 then .finite 0 else .infinity
  else .finite (toFixed1 ((newTweets : ℚ) / (timeSpan : ℚ) * 1000))

/-- Function `updateStats` (part_001 lines 190-214): computes the rate over the
elapsed window, resets the window (`stats.timestamp = now;
stats.tweetsCount = 0`) before handing the stat record to `db.storeStat`,
whose success or failure (`persistErr`) only selects a log line and does
not affect the module state.  Returns the new window state and the
reported rate. -/
def updateStats (st : Stats) (now : Nat) (_persistErr : Bool) : Stats × StatValue :=
  let timeSpan := now - st.timestamp
  let newTweets := st.tweetsCount
  let rate := tweetsPerSec newTweets timeSpan
  (⟨now, 0⟩, rate)

/-! ### Lost-tweet reclaim (`reassignLostTweets`, part_001 lines 216-235) -/

/-- The per-tweet body of `db.getLostTweets`'s callback (part_001 lines
224-234): each lost tweet (identified here by a number) gets the next
round-robin worker.  Returns the final dispatcher state and the assignment
list in callback order. -/
def reassignLoop (s : FetcherState) : List Nat → FetcherState × List (Nat × Option String)
  | [] => (s, [])
  | t :: ts =>
    let (w, s1) := selectNextVM s
    let (s2, rest) := reassignLoop s1 ts
    (s2, (t, w) :: rest)

/-- Function `reassignLostTweets` (part_001 lines 216-235): if `vms.length == 0` the
function returns at once — the middle component records whether
`db.getLostTweets` was queried, and the last the assignments performed. -/
def reassignLostTweets (s : FetcherState) (lost : List Nat) :
    FetcherState × Bool × List (Nat × Option String) :=
  if s.vms.length = 0 then
    (s, false, [])
  else
    let (s1, asg) := reassignLoop s lost
    (s1, true, asg)

/-! ## Helper lemmas -/

/-- The JavaScript equality check of `updateTerms` is exactly list
equality. -/
theorem termsEqual_iff {a b : List String} : termsEqual a b = true ↔ a = b := by
  constructor
  · intro h
    unfold termsEqual at h
    simp only [Bool.and_eq_true, beq_iff_eq, List.all_eq_true, List.mem_range] at h
    obtain ⟨hlen, hall⟩ := h
    apply List.ext_get?
    intro n
    by_cases hn : n < a.length
    · exact hall n hn
    · rw [List.get?_eq_none.mpr (Nat.le_of_not_lt hn),
        List.get?_eq_none.mpr (by omega)]
  · rintro rfl
    unfold termsEqual
    simp

/-! ## C4: term normalization keeps duplicates -/

/-- C4 (counterexample): the pipeline of `getTerms` (lowercase, trim, drop
empty, sort) applied to `[" Clinton ", "clinton", "", "Obama"]` does NOT
produce `["clinton", "obama"]` — no deduplication takes place. -/
theorem cleanse_example_ne_deduped :
    cleanse [" Clinton ", "clinton", "", "Obama"] ≠ ["clinton", "obama"] := by
  decide

/-- C4 (amended): the pipeline of `getTerms` applied to
`[" Clinton ", "clinton", "", "Obama"]` produces
`["clinton", "clinton", "obama"]`: trimmed, lowercased, empties dropped,
sorted ascending, duplicates retained. -/
theorem cleanse_example_eq :
    cleanse [" Clinton ", "clinton", "", "Obama"] = ["clinton", "clinton", "obama"] := by
  decide

/-! ## C7: empty-pool sentinel -/

/-- C7: whenever the worker-pool snapshot is empty at the time of the
assign call, `selectNextVM` selects the sentinel worker `"default"` (and
being a total function, the call cannot fail). -/
theorem selectNextVM_empty_default (s : FetcherState) (h : s.vms = []) :
    (selectNextVM s).1 = some "default" := by
  simp [selectNextVM, h]

/-- Witness for `selectNextVM_empty_default` at the concrete state with an
empty pool and cursor 5. -/
theorem selectNextVM_empty_default_witness :
    (FetcherState.mk [] 5).vms = [] ∧
    (selectNextVM (FetcherState.mk [] 5)).1 = some "default" :=
  ⟨by decide, selectNextVM_empty_default (FetcherState.mk [] 5) (by decide)⟩

/-! ## C9: reclaimer is a no-op on an empty pool -/

/-- C9: with an empty pool snapshot, `reassignLostTweets` returns without
querying the event store (`false` flag) and without reassigning any tweet,
leaving the dispatcher state unchanged, for every list of orphaned
tweets. -/
theorem reassignLostTweets_empty_noop (s : FetcherState) (lost : List Nat)
    (h : s.vms = []) :
    reassignLostTweets s lost = (s, false, []) := by
  simp [reassignLostTweets, h]

/-- Witness for `reassignLostTweets_empty_noop` with three orphaned
tweets. -/
theorem reassignLostTweets_empty_noop_witness :
    (FetcherState.mk [] 2).vms = [] ∧
    reassignLostTweets (FetcherState.mk [] 2) [10, 11, 12] =
      (FetcherState.mk [] 2, false, []) :=
  ⟨by decide, reassignLostTweets_empty_noop (FetcherState.mk [] 2) [10, 11, 12] (by decide)⟩

/-! ## C8: stats computation and window reset -/

/-- C8: `updateStats` resets the counting window to zero and stamps the
report time whether or not persisting the stat succeeds; the reported rate
is the ingested count divided by the elapsed seconds rounded to one
decimal: a 10-second window (10000 ms) with 25 new tweets reports `2.5`,
and a window with 0 new tweets — of any length, the zero-length `0/0` NaN
case included — reports `0.0`, never `NaN`. -/
theorem updateStats_spec (st : Stats) (now : Nat) (e : Bool) :
    (updateStats st now e).1 = ⟨now, 0⟩ ∧
    (updateStats ⟨0, 25⟩ 10000 e).2 = .finite (5 / 2) ∧
    (updateStats ⟨st.timestamp, 0⟩ now e).2 = .finite 0 := by
  refine ⟨rfl, ?_, ?_⟩
  · norm_num [updateStats, tweetsPerSec, toFixed1]
  · by_cases h : now - st.timestamp = 0 <;>
      norm_num [updateStats, tweetsPerSec, toFixed1, h]

/-! ## C10: cursor drift on an empty pool -/

/-- On an empty pool, every `selectNextVM` call leaves the pool empty and
moves the cursor up by one (`(i + 1) % 0` is `NaN` in JS, never `0`). -/
theorem assignN_empty_state (k : Nat) : ∀ c : Nat,
    (assignN ⟨[], c⟩ k).2 = ⟨[], c + k⟩ := by
  induction k with
  | zero => intro c; simp [assignN]
  | succ n ih =>
    intro c
    have hsel : selectNextVM ⟨[], c⟩ = (some "default", ⟨[], c + 1⟩) := by
      simp [selectNextVM]
    have : c + 1 + n = c + (n + 1) := by omega
    simp [assignN, hsel, ih (c + 1), this]

/-- C10: with an empty pool every `selectNextVM` call still advances the
cursor by exactly 1, so after `k` empty-pool assigns the cursor has grown
by `k`; a later pool refresh replaces the snapshot but never resets the
cursor, so the cursor can exceed the size of any subsequently refreshed
pool. -/
theorem empty_pool_cursor_growth (s : FetcherState) (h : s.vms = []) (k : Nat)
    (pool : List VMInfo) :
    (selectNextVM s).2.roundRobinIndex = s.roundRobinIndex + 1 ∧
    (assignN s k).2.roundRobinIndex = s.roundRobinIndex + k ∧
    (updateAvailableVMs (assignN s k).2 (.manifest pool)).roundRobinIndex =
      s.roundRobinIndex + k ∧
    ∃ j, (updateAvailableVMs (assignN s j).2 (.manifest pool)).roundRobinIndex >
      (updateAvailableVMs (assignN s j).2 (.manifest pool)).vms.length := by
  obtain ⟨vms, c⟩ := s
  simp only at h
  subst h
  refine ⟨by simp [selectNextVM], by rw [assignN_empty_state], ?_, ?_⟩
  · rw [assignN_empty_state]
    rfl
  · refine ⟨((pool.filter isLive).map VMInfo.name).length + 1, ?_⟩
    rw [assignN_empty_state]
    show c + (((pool.filter isLive).map VMInfo.name).length + 1) >
      ((pool.filter isLive).map VMInfo.name).length
    omega

/-- Witness for `empty_pool_cursor_growth`: empty pool, cursor 0, two
assigns, then a refresh that brings up one running worker. -/
theorem empty_pool_cursor_growth_witness :
    (FetcherState.mk [] 0).vms = [] ∧
    ((selectNextVM (FetcherState.mk [] 0)).2.roundRobinIndex = 0 + 1 ∧
     (assignN (FetcherState.mk [] 0) 2).2.roundRobinIndex = 0 + 2 ∧
     (updateAvailableVMs (assignN (FetcherState.mk [] 0) 2).2
        (.manifest [VMInfo.mk "a" (some "RUNNING") none])).roundRobinIndex = 0 + 2 ∧
     ∃ j, (updateAvailableVMs (assignN (FetcherState.mk [] 0) j).2
        (.manifest [VMInfo.mk "a" (some "RUNNING") none])).roundRobinIndex >
          (updateAvailableVMs (assignN (FetcherState.mk [] 0) j).2
            (.manifest [VMInfo.mk "a" (some "RUNNING") none])).vms.length) :=
  ⟨by decide,
   empty_pool_cursor_growth (FetcherState.mk [] 0) (by decide) 2
     [VMInfo.mk "a" (some "RUNNING") none]⟩

/-! ## C2: selection index is not re-ranged by a modulo -/

/-- C2 (counterexample): starting from pool `["a", "b"]` with cursor 0, one
assign advances the cursor to 1; after the pool shrinks to the single
running worker `"a"`, the next assign call has a non-empty pool but selects
`vms[1]`, which is `undefined` (`none`) — not `pool[cursor mod poolSize] =
"a"`: the selection index is not re-ranged by a modulo and goes out of the
pool's bounds. -/
theorem selection_out_of_bounds_counterexample :
    0 < ((updateAvailableVMs (selectNextVM ⟨["a", "b"], 0⟩).2
          (.manifest [VMInfo.mk "a" (some "RUNNING") none])).vms).length ∧
    (selectNextVM (updateAvailableVMs (selectNextVM ⟨["a", "b"], 0⟩).2
        (.manifest [VMInfo.mk "a" (some "RUNNING") none]))).1 = none ∧
    (selectNextVM (updateAvailableVMs (selectNextVM ⟨["a", "b"], 0⟩).2
        (.manifest [VMInfo.mk "a" (some "RUNNING") none]))).1 ≠
      (updateAvailableVMs (selectNextVM ⟨["a", "b"], 0⟩).2
        (.manifest [VMInfo.mk "a" (some "RUNNING") none])).vms.get?
        ((updateAvailableVMs (selectNextVM ⟨["a", "b"], 0⟩).2
          (.manifest [VMInfo.mk "a" (some "RUNNING") none])).roundRobinIndex %
         (updateAvailableVMs (selectNextVM ⟨["a", "b"], 0⟩).2
          (.manifest [VMInfo.mk "a" (some "RUNNING") none])).vms.length) := by
  decide

/-- C2 (amended): on a non-empty pool the selected worker is
`pool[cursor]`; this equals `pool[cursor mod poolSize]` while the cursor is
within the pool's bounds, but when the pool has shrunk below the cursor the
selection index is NOT re-ranged — the read is out of bounds and yields
`undefined` (`none`), not an element of the pool. -/
theorem selectNextVM_selection (s : FetcherState) (h0 : 0 < s.vms.length) :
    (s.roundRobinIndex < s.vms.length →
      (selectNextVM s).1 = s.vms.get? (s.roundRobinIndex % s.vms.length)) ∧
    (s.vms.length ≤ s.roundRobinIndex → (selectNextVM s).1 = none) := by
  constructor
  · intro hlt
    rw [Nat.mod_eq_of_lt hlt]
    simp [selectNextVM, h0]
  · intro hge
    simp only [selectNextVM, h0, gt_iff_lt, if_pos]
    exact List.get?_eq_none.mpr hge

/-- Witness for `selectNextVM_selection` at the shrunk-pool state
`⟨["a"], 1⟩`: the pool is non-empty, the cursor is at or past the pool
size, and the selection is `none`. -/
theorem selectNextVM_selection_witness :
    0 < (FetcherState.mk ["a"] 1).vms.length ∧
    (FetcherState.mk ["a"] 1).vms.length ≤ (FetcherState.mk ["a"] 1).roundRobinIndex ∧
    (selectNextVM (FetcherState.mk ["a"] 1)).1 = none :=
  ⟨by decide, by decide,
   (selectNextVM_selection (FetcherState.mk ["a"] 1) (by decide)).2 (by decide)⟩

/-! ## C3: failure handling in the polling cycles -/

/-- C3 (counterexample): with applied term set `["a"]` and an open stream
handle, a failing `getAllTerms` call does NOT retain the previous in-memory
term state: `getTerms` hands the cleansed empty list to `updateTerms`,
which sees a difference, stops the open handle and rotates the subscription
to the empty term set. -/
theorem term_failure_rotates_counterexample :
    (updateTerms ⟨["a"], some 0, 1⟩ (.error "db down")).1.currentStreamTerms = [] ∧
    (updateTerms ⟨["a"], some 0, 1⟩ (.error "db down")).1.currentStreamTerms ≠ ["a"] ∧
    (updateTerms ⟨["a"], some 0, 1⟩ (.error "db down")).2 =
      [.stop 0, .subscribe [] 1] := by
  decide

/-- C3 (amended): a failing inventory listing (either the authentication
callback or `listVMsOfInstanceGroup` reporting an error) retains the
previous pool snapshot unchanged and does not crash, but a failing
`getAllTerms` call is treated as an empty term list: when the applied term
set was non-empty, the poll rotates the subscription (the applied term set
becomes empty) instead of retaining the previous state. -/
theorem transient_failure_handling (s : FetcherState) (t : TermState) (msg : String)
    (hne : t.currentStreamTerms ≠ []) :
    updateAvailableVMs s (.authErr msg) = s ∧
    updateAvailableVMs s (.listErr msg) = s ∧
    (updateTerms t (.error msg)).1.currentStreamTerms = [] ∧
    (updateTerms t (.error msg)).2 ≠ [] := by
  have hterms : getTerms (Except.error msg) = [] := rfl
  have heq : termsEqual (getTerms (Except.error msg)) t.currentStreamTerms = false := by
    rw [hterms]
    cases ht : t.currentStreamTerms with
    | nil => exact absurd ht hne
    | cons x xs => simp [termsEqual]
  rw [hterms] at heq
  refine ⟨rfl, rfl, ?_, ?_⟩ <;>
    cases hs : t.twitterStream <;> simp [updateTerms, heq, hs, hterms]

/-- Witness for `transient_failure_handling`: pool `["x"]`, applied terms
`["a"]`, open handle `0`, failing external calls. -/
theorem transient_failure_handling_witness :
    (TermState.mk ["a"] (some 0) 1).currentStreamTerms ≠ [] ∧
    (updateAvailableVMs (FetcherState.mk ["x"] 0) (.authErr "boom") =
        FetcherState.mk ["x"] 0 ∧
     updateAvailableVMs (FetcherState.mk ["x"] 0) (.listErr "boom") =
        FetcherState.mk ["x"] 0 ∧
     (updateTerms (TermState.mk ["a"] (some 0) 1) (.error "boom")).1.currentStreamTerms = [] ∧
     (updateTerms (TermState.mk ["a"] (some 0) 1) (.error "boom")).2 ≠ []) :=
  ⟨by decide,
   transient_failure_handling (FetcherState.mk ["x"] 0)
     (TermState.mk ["a"] (some 0) 1) "boom" (by decide)⟩

/-! ## C5: rotation exclusivity -/

/-- C5: along every prefix of the feed-action trace of one `updateTerms`
call, at most one feed handle is open; and in a rotation that finds an open
handle, the trace is exactly "stop the old handle, then subscribe the new
one" — after the stop (first action) no handle is open, so the old handle
is gone before the new subscribe is issued. -/
theorem rotation_exclusive (s : TermState) (db : Except String (List String)) (n : Nat) :
    (openHandles s.twitterStream.toList ((updateTerms s db).2.take n)).length ≤ 1 ∧
    (∀ h, s.twitterStream = some h →
      termsEqual (getTerms db) s.currentStreamTerms = false →
      (updateTerms s db).2 = [.stop h, .subscribe (getTerms db) s.nextHandle] ∧
      openHandles s.twitterStream.toList ((updateTerms s db).2.take 1) = []) := by
  cases hb : termsEqual (getTerms db) s.currentStreamTerms with
  | true =>
    constructor
    · cases hs : s.twitterStream <;>
        simp [updateTerms, hb, hs, openHandles]
    · intro h hsome hfalse
      cases hfalse
  | false =>
    cases hs : s.twitterStream with
    | none =>
      refine ⟨?_, ?_⟩
      · match n with
        | 0 => simp [openHandles]
        | n + 1 => simp [updateTerms, hb, hs, openHandles, applyEvent]
      · intro h hsome
        cases hsome
    | some h0 =>
      refine ⟨?_, ?_⟩
      · match n with
        | 0 => simp [hs, openHandles]
        | 1 => simp [updateTerms, hb, hs, openHandles, applyEvent]
        | n + 2 => simp [updateTerms, hb, hs, openHandles, applyEvent]
      · intro h hsome hfalse
        injection hsome with hh
        subst hh
        constructor
        · simp [updateTerms, hb, hs]
        · simp [updateTerms, hb, hs, openHandles, applyEvent]

/-- Witness for `rotation_exclusive`: applied terms `["a"]`, open handle 0,
fresh terms `["b"]`; after the first action of the trace no handle is
open. -/
theorem rotation_exclusive_witness :
    (openHandles (TermState.mk ["a"] (some 0) 1).twitterStream.toList
      ((updateTerms (TermState.mk ["a"] (some 0) 1) (.ok ["b"])).2.take 1)).length ≤ 1 ∧
    (TermState.mk ["a"] (some 0) 1).twitterStream = some 0 ∧
    termsEqual (getTerms (.ok ["b"])) (TermState.mk ["a"] (some 0) 1).currentStreamTerms = false ∧
    ((updateTerms (TermState.mk ["a"] (some 0) 1) (.ok ["b"])).2 =
      [.stop 0, .subscribe (getTerms (.ok ["b"])) 1] ∧
     openHandles (TermState.mk ["a"] (some 0) 1).twitterStream.toList
      ((updateTerms (TermState.mk ["a"] (some 0) 1) (.ok ["b"])).2.take 1) = []) :=
  ⟨(rotation_exclusive (TermState.mk ["a"] (some 0) 1) (.ok ["b"]) 1).1,
   rfl, by decide,
   (rotation_exclusive (TermState.mk ["a"] (some 0) 1) (.ok ["b"]) 1).2 0 rfl (by decide)⟩

/-! ## C6: poll idempotence -/

/-- C6: when the cleansed fetched terms equal the applied term set, the
poll is a no-op — same state (handle untouched) and no feed actions; and
whatever the first poll did, a second poll against the same term-source
outcome performs no feed action and leaves the state unchanged, so two
consecutive polls over an unchanged source rotate at most once. -/
theorem poll_idempotent (s : TermState) (db : Except String (List String)) :
    (getTerms db = s.currentStreamTerms → updateTerms s db = (s, [])) ∧
    (updateTerms (updateTerms s db).1 db).2 = [] ∧
    (updateTerms (updateTerms s db).1 db).1 = (updateTerms s db).1 := by
  have hkey : ∀ t : TermState, getTerms db = t.currentStreamTerms →
      updateTerms t db = (t, []) := by
    intro t h
    have hb : termsEqual (getTerms db) t.currentStreamTerms = true := termsEqual_iff.mpr h
    simp [updateTerms, hb]
  have h1 : (updateTerms s db).1.currentStreamTerms = getTerms db := by
    cases hb : termsEqual (getTerms db) s.currentStreamTerms with
    | true =>
      rw [hkey s (termsEqual_iff.mp hb)]
      exact (termsEqual_iff.mp hb).symm
    | false => cases hs : s.twitterStream <;> simp [updateTerms, hb, hs]
  have h2 := hkey (updateTerms s db).1 h1.symm
  exact ⟨hkey s, by rw [h2], by rw [h2]⟩

/-- Witness for `poll_idempotent`: applied terms `["b"]` with the source
also yielding `["b"]` — the poll returns the state unchanged with no feed
actions. -/
theorem poll_idempotent_witness :
    getTerms (.ok ["b"]) = (TermState.mk ["b"] (some 0) 1).currentStreamTerms ∧
    updateTerms (TermState.mk ["b"] (some 0) 1) (.ok ["b"]) =
      (TermState.mk ["b"] (some 0) 1, []) :=
  ⟨by decide,
   (poll_idempotent (TermState.mk ["b"] (some 0) 1) (.ok ["b"])).1 (by decide)⟩

/-! ## C1: round-robin fairness -/

/-- While the cursor is within the pool's bounds, one `selectNextVM` call
selects the worker at the cursor and advances the cursor modulo the pool
size. -/
theorem selectNextVM_lt {vms : List String} {c : Nat} (h : c < vms.length) :
    selectNextVM ⟨vms, c⟩ = (vms.get? c, ⟨vms, (c + 1) % vms.length⟩) := by
  have hpos : 0 < vms.length := Nat.lt_of_le_of_lt (Nat.zero_le c) h
  have hne : vms.length ≠ 0 := by omega
  have hnext : (if vms.length ≠ 0 ∧ (c + 1) % vms.length = 0 then 0 else c + 1) =
      (c + 1) % vms.length := by
    by_cases hz : (c + 1) % vms.length = 0
    · rw [if_pos ⟨hne, hz⟩, hz]
    · rw [if_neg fun hand => hz hand.2]
      symm
      rcases Nat.lt_or_ge (c + 1) vms.length with hlt | hge
      · exact Nat.mod_eq_of_lt hlt
      · exfalso
        apply hz
        rw [show c + 1 = vms.length from by omega, Nat.mod_self]
  simp [selectNextVM, hpos]
  simpa using hnext

/-- Splitting a run of consecutive dispatches. -/
theorem assignN_add (a : Nat) : ∀ (s : FetcherState) (b : Nat),
    assignN s (a + b) = ((assignN s a).1 ++ (assignN (assignN s a).2 b).1,
      (assignN (assignN s a).2 b).2) := by
  induction a with
  | zero => intro s b; simp [assignN]
  | succ n ih =>
    intro s b
    have hstep : n + 1 + b = (n + b) + 1 := by omega
    rw [hstep]
    rcases hsel : selectNextVM s with ⟨w, s1⟩
    simp [assignN, hsel, ih s1 b]

/-- A run of dispatches that does not wrap past the end of the pool selects
the workers `vms[c], vms[c+1], …` in pool order and leaves the cursor at
`c + j`, reset to `0` exactly when the end of the pool is reached. -/
theorem assignN_no_wrap (j : Nat) : ∀ (vms : List String) (c : Nat),
    c < vms.length → c + j ≤ vms.length →
    assignN ⟨vms, c⟩ j = (((vms.drop c).take j).map some,
      ⟨vms, if c + j = vms.length then 0 else c + j⟩) := by
  induction j with
  | zero =>
    intro vms c hc hj
    rw [if_neg (by omega)]
    simp [assignN]
  | succ n ih =>
    intro vms c hc hj
    have hget : vms.get? c = some (vms.get ⟨c, hc⟩) := by
      rw [List.get?_eq_getElem?, List.getElem?_eq_getElem hc, List.get_eq_getElem]
    have hexp : ((vms.drop c).take (n + 1)).map some =
        some (vms.get ⟨c, hc⟩) :: ((vms.drop (c + 1)).take n).map some := by
      rw [List.drop_eq_getElem_cons hc, List.take_succ_cons, List.map_cons,
        List.get_eq_getElem]
    rcases Nat.lt_or_ge (c + 1) vms.length with hlt | hge
    · -- no wrap at this step: cursor moves to c + 1
      have hmod : (c + 1) % vms.length = c + 1 := Nat.mod_eq_of_lt hlt
      have hrec := ih vms (c + 1) hlt (by omega)
      rw [show c + 1 + n = c + (n + 1) from by omega] at hrec
      simp only [assignN, selectNextVM_lt hc, hmod, hrec, hget, hexp]
    · -- the step reaches the end of the pool: c + 1 = length, so n = 0
      have hEq : c + 1 = vms.length := by omega
      have hn : n = 0 := by omega
      subst hn
      have hmod : (c + 1) % vms.length = 0 := by rw [hEq, Nat.mod_self]
      simp only [assignN, selectNextVM_lt hc, hmod, hget, hexp]
      rw [if_pos (by omega)]
      simp [assignN]

/-- C1: from any state whose cursor is within the pool's bounds (as it is
whenever the pool has stayed fixed since the cursor last wrapped — in
particular from the initial cursor 0), `vms.length` consecutive dispatch
calls select exactly the workers of the pool rotated to start at the
cursor — every worker exactly once, in pool order — and the state, cursor
included, returns to its starting value. -/
theorem round_robin_fair (s : FetcherState) (hN : 1 ≤ s.vms.length)
    (hc : s.roundRobinIndex < s.vms.length) :
    (assignN s s.vms.length).1 = (s.vms.rotate s.roundRobinIndex).map some ∧
    (assignN s s.vms.length).1.Perm (s.vms.map some) ∧
    (assignN s s.vms.length).2 = s := by
  obtain ⟨vms, c⟩ := s
  simp only at hN hc ⊢
  have hstage1 : assignN ⟨vms, c⟩ (vms.length - c) = ((vms.drop c).map some, ⟨vms, 0⟩) := by
    rw [assignN_no_wrap (vms.length - c) vms c hc (by omega), if_pos (by omega),
      List.take_of_length_le (by rw [List.length_drop])]
  have hstage2 : assignN ⟨vms, 0⟩ c = ((vms.take c).map some, ⟨vms, c⟩) := by
    rw [assignN_no_wrap c vms 0 (by omega) (by omega), if_neg (by omega)]
    simp
  have hsplitn : vms.length = (vms.length - c) + c := by omega
  have hsplit := assignN_add (vms.length - c) ⟨vms, c⟩ c
  rw [hstage1] at hsplit
  simp only [hstage2] at hsplit
  rw [hsplitn, hsplit]
  have hrot : (vms.rotate c) = vms.drop c ++ vms.take c :=
    List.rotate_eq_drop_append_take (Nat.le_of_lt hc)
  refine ⟨by rw [hrot, List.map_append], ?_, rfl⟩
  show ((vms.drop c).map some ++ (vms.take c).map some).Perm (vms.map some)
  have hcollect : (vms.drop c).map some ++ (vms.take c).map some =
      (vms.rotate c).map some := by
    rw [hrot, List.map_append]
  rw [hcollect]
  exact (List.rotate_perm vms c).map some

/-- Witness for `round_robin_fair`: pool `[w1, w2, w3]` with cursor 0 —
three dispatches select `w1, w2, w3` in order and the cursor returns
to 0. -/
theorem round_robin_fair_witness :
    1 ≤ (FetcherState.mk ["w1", "w2", "w3"] 0).vms.length ∧
    (FetcherState.mk ["w1", "w2", "w3"] 0).roundRobinIndex <
      (FetcherState.mk ["w1", "w2", "w3"] 0).vms.length ∧
    ((assignN (FetcherState.mk ["w1", "w2", "w3"] 0) 3).1 =
        ((["w1", "w2", "w3"] : List String).rotate 0).map some ∧
     (assignN (FetcherState.mk ["w1", "w2", "w3"] 0) 3).1.Perm
        ((["w1", "w2", "w3"] : List String).map some) ∧
     (assignN (FetcherState.mk ["w1", "w2", "w3"] 0) 3).2 =
        FetcherState.mk ["w1", "w2", "w3"] 0) :=
  ⟨by decide, by decide,
   round_robin_fair (FetcherState.mk ["w1", "w2", "w3"] 0) (by decide) (by decide)⟩

end Jazz
